import Mathlib

/-!
Verification development for the ScribeAI meeting-transcription repository.

The definitions below are a shallow embedding of the session-processing core:

* `src/server/index.ts` — the socket server: session lifecycle handlers
  (`session:start`, `session:chunk`, `session:pause`, `session:resume`,
  `session:stop`), the in-memory chunk buffer (a `Map` from session id to an
  array of chunk payloads), and the finalization protocol with its Prisma
  transaction.
* `src/lib/gemini.ts` — the transcription and summarization gateways with
  their fallback behaviour.
* the client recorder state machine (xstate) — its `TRANSCRIPT` action on the
  in-context transcript list.

Modelling conventions:
* JavaScript `Map`s and Prisma tables are association lists with explicit
  lookup / set / update / erase operations; Prisma `update` on a missing row
  throws, which is modelled by `alUpdate` returning `none` and the handler
  skipping its remaining effects.
* The external generative-AI capability is an oracle parameter: for
  transcription an `Except` value standing for the outcome of the external
  call (including its post-processing of the response text), for
  summarization a function from the prompt to the raw response text.
  JSON parsing of the summarization response (`JSON.parse` over the brace
  slice) is likewise an oracle `String → Option GeminiSummary`.
* The Prisma `$transaction` at finalization is atomic: a Boolean oracle
  decides whether it commits (all row writes applied) or throws (none).
* Confidence scores are exact decimals in the source (0, 0.8, 0.85); they are
  embedded in hundredths as `Nat` (0, 80, 85) to stay away from floating
  point.
* Millisecond timestamps are `Int`.
-/

namespace ScribeAI

/-! ### Data model (prisma schema and src/types/session) -/

/-- The `SessionStatus` enum of the Prisma schema. -/
inductive SessionStatus
  | pending
  | recording
  | paused
  | processing
  | completed
  | failed
deriving DecidableEq

/-- The `RecordingSource` enum of the Prisma schema. -/
inductive RecordingSource
  | mic
  | tab
deriving DecidableEq

/-- The `GeminiSummary` shape of src/lib/gemini.ts. -/
structure GeminiSummary where
  keyPoints : String
  actionItems : String
  decisions : String
deriving DecidableEq

/-- Return type of `transcribeAudio` in src/lib/gemini.ts. -/
structure TranscriptionResult where
  text : String
  speakerTag : String
  confidence : Option Nat
deriving DecidableEq

/-- A validated `session:chunk` payload (the `chunkSchema` zod shape in
src/server/index.ts).  `text` and `confidence` are optional fields. -/
structure ChunkPayload where
  sessionId : String
  sequence : Nat
  startedAt : Int
  endedAt : Int
  speakerTag : String
  audio : String
  text : Option String
  confidence : Option Nat
deriving DecidableEq

/-! ### Association-list primitives standing for `Map` and Prisma tables -/

/-- `Map.get` / lookup by unique key. -/
def alLookup {κ ν : Type} [DecidableEq κ] : List (κ × ν) → κ → Option ν
  | [], _ => none
  | (k', v) :: rest, k => if k' = k then some v else alLookup rest k

/-- `Map.set` / upsert with a plain value: replace the first binding of the
key, or append a new binding. -/
def alSet {κ ν : Type} [DecidableEq κ] : List (κ × ν) → κ → ν → List (κ × ν)
  | [], k, v => [(k, v)]
  | (k', v') :: rest, k, v =>
    if k' = k then (k, v) :: rest else (k', v') :: alSet rest k v

/-- Prisma `update`: modify the row if present, otherwise fail (throw). -/
def alUpdate {κ ν : Type} [DecidableEq κ] :
    List (κ × ν) → κ → (ν → ν) → Option (List (κ × ν))
  | [], _, _ => none
  | (k', v') :: rest, k, f =>
    if k' = k then some ((k', f v') :: rest)
    else (alUpdate rest k f).map (fun r => (k', v') :: r)

/-- `Map.delete`. -/
def alErase {κ ν : Type} [DecidableEq κ] : List (κ × ν) → κ → List (κ × ν)
  | [], _ => []
  | (k', v') :: rest, k =>
    if k' = k then alErase rest k else (k', v') :: alErase rest k

/-- Number of bindings of a key (used to state that a table keyed by a unique
key holds exactly one row for it). -/
def countKey {κ ν : Type} [DecidableEq κ] (l : List (κ × ν)) (k : κ) : Nat :=
  (l.filter (fun p => p.1 = k)).length

/-! ### src/lib/gemini.ts -/

/-- Sentinel returned by the `catch` fallback of `transcribeAudio`
(src/lib/gemini.ts lines 146-155): empty text, default speaker tag, zero
confidence. -/
def sentinelTranscription : TranscriptionResult :=
  { text := "", speakerTag := "speaker", confidence := some 0 }

/-- `transcribeAudio` of src/lib/gemini.ts.  `configured` is whether the
Gemini client exists (`transcriptModel`): when it does not, the function
throws before entering its `try` block.  `ext` is the oracle for the body of
the `try` block — the external `generateContent` call together with its
speaker-tag post-processing of the response text; when the external
capability fails the `catch` returns `sentinelTranscription` instead of
propagating. -/
def transcribeAudio (configured : Bool) (ext : Except String TranscriptionResult) :
    Except String TranscriptionResult :=
  if configured = false then Except.error "Gemini client not configured"
  else
    match ext with
    | Except.ok r => Except.ok r
    | Except.error _ => Except.ok sentinelTranscription

/-- The degraded summary built when the summarization response does not parse
(src/lib/gemini.ts lines 62-68): raw text preserved in `keyPoints`,
`actionItems` and `decisions` marked unextractable. -/
def summaryFallback (raw : String) : GeminiSummary :=
  { keyPoints := raw
    actionItems := "Could not extract action items"
    decisions := "Could not extract decisions" }

/-- The summarization prompt of src/lib/gemini.ts: fixed instructions
followed by the transcript. -/
def summaryPrompt (transcript : String) : String :=
  "Please analyze the following meeting transcript. Transcript:\n" ++ transcript

/-- `summarizeTranscript` of src/lib/gemini.ts.  `configured` is whether
`summaryModel` exists (otherwise the function throws).  `ext` is the external
`generateContent` oracle, applied to the prompt; an external error is NOT
caught here — the `try` of the source only wraps JSON parsing.  `parseJson`
is the oracle for `JSON.parse` over the brace-delimited slice of the
response; when it fails the fallback object is returned. -/
def summarizeTranscript (configured : Bool) (transcript : String)
    (ext : String → Except String String)
    (parseJson : String → Option GeminiSummary) : Except String GeminiSummary :=
  if configured = false then Except.error "Gemini API key not configured"
  else
    match ext (summaryPrompt transcript) with
    | Except.error e => Except.error e
    | Except.ok raw =>
      match parseJson raw with
      | some s => Except.ok s
      | none => Except.ok (summaryFallback raw)

/-! ### src/server/index.ts — state and handlers -/

/-- A row of the Prisma `Session` table (the fields the server touches).
`ended` records whether `endedAt` has been set. -/
structure SessionRow where
  userId : String
  status : SessionStatus
  source : RecordingSource
  ended : Bool
deriving DecidableEq

/-- A row of the Prisma `TranscriptChunk` table, keyed externally by
`(sessionId, sequence)`. -/
structure ChunkRow where
  text : String
  speakerTag : String
  startedAt : Int
  endedAt : Int
  confidence : Option Nat
deriving DecidableEq

/-- The socket events the server emits (to the sender or to the session
room). -/
inductive OutEvent
  | sessionAck (sessionId : String) (status : SessionStatus)
  | sessionError (message : String)
  | transcriptionUpdate (sessionId : String) (sequence : Nat) (text : String)
      (speakerTag : String) (confidence : Option Nat)
  | sessionStatus (sessionId : String) (status : SessionStatus)
      (summary : Option GeminiSummary)
deriving DecidableEq

/-- The observable server state: the Prisma tables (`User`, `Session`,
`TranscriptChunk`, `Summary`), the in-memory chunk buffer
(`const buffer = new Map<string, ChunkPayload[]>()`), and the trace of
emitted events. -/
structure ServerState where
  users : List (String × String)
  sessions : List (String × SessionRow)
  chunkRows : List ((String × Nat) × ChunkRow)
  summaries : List (String × GeminiSummary)
  buffer : List (String × List ChunkPayload)
  emitted : List OutEvent
deriving DecidableEq

/-- The state of a freshly started server process. -/
def initState : ServerState :=
  { users := [], sessions := [], chunkRows := [], summaries := [],
    buffer := [], emitted := [] }

/-- Append one emitted socket event to the trace. -/
def emit (st : ServerState) (e : OutEvent) : ServerState :=
  { st with emitted := st.emitted ++ [e] }

/-- The `session:start` handler: reset the session's buffer entry to `[]`,
upsert the user, upsert the session with status RECORDING (an existing row
keeps its source), acknowledge. -/
def sessionStart (st : ServerState) (sessionId userId userEmail : String)
    (source : RecordingSource) : ServerState :=
  let buffer := alSet st.buffer sessionId []
  let users := alSet st.users userId userEmail
  let sessions :=
    match alLookup st.sessions sessionId with
    | some r => alSet st.sessions sessionId { r with status := SessionStatus.recording }
    | none =>
      alSet st.sessions sessionId
        { userId := userId, status := SessionStatus.recording,
          source := source, ended := false }
  emit { st with buffer := buffer, users := users, sessions := sessions }
    (OutEvent.sessionAck sessionId SessionStatus.recording)

/-- The `chunkSchema` constraint the handlers' claims depend on: the base64
audio field must have length at least 10 (`z.string().min(10)`).  The string
format checks (uuid) are not modelled. -/
def validChunk (p : ChunkPayload) : Bool :=
  10 ≤ p.audio.length

/-- JavaScript falsiness of the optional text field: absent or empty. -/
def isBlank : Option String → Bool
  | none => true
  | some s => s = ""

/-- The buffer insertion of the `session:chunk` handler: a session with no
buffer entry gets a fresh singleton array, otherwise the payload is pushed
onto the existing array. -/
def bufferInsert (buf : List (String × List ChunkPayload)) (p : ChunkPayload) :
    List (String × List ChunkPayload) :=
  match alLookup buf p.sessionId with
  | none => alSet buf p.sessionId [p]
  | some store => alSet buf p.sessionId (store ++ [p])

/-- The `session:chunk` handler.  After schema validation the payload is
buffered; if its text is absent or empty (JS falsiness) and audio is present,
`transcribeAudio` runs and on success the buffered payload object is updated
in place with the transcription; the handler's own `catch` (reachable when
the Gemini client is not configured) leaves the buffered payload unchanged
and broadcasts empty text.  Finally a `transcription:update` event is
broadcast to the session room. -/
def sessionChunk (st : ServerState) (p : ChunkPayload) (configured : Bool)
    (ext : Except String TranscriptionResult) : ServerState :=
  if validChunk p = false then
    emit st (OutEvent.sessionError "invalid chunk payload")
  else if isBlank p.text && !(p.audio == "") then
    match transcribeAudio configured ext with
    | Except.ok t =>
      let p' : ChunkPayload :=
        { p with
          text := some t.text, speakerTag := t.speakerTag,
          confidence := t.confidence }
      emit { st with buffer := bufferInsert st.buffer p' }
        (OutEvent.transcriptionUpdate p.sessionId p.sequence t.text
          t.speakerTag t.confidence)
    | Except.error _ =>
      emit { st with buffer := bufferInsert st.buffer p }
        (OutEvent.transcriptionUpdate p.sessionId p.sequence ""
          p.speakerTag p.confidence)
  else
    emit { st with buffer := bufferInsert st.buffer p }
      (OutEvent.transcriptionUpdate p.sessionId p.sequence (p.text.getD "")
        p.speakerTag p.confidence)

/-- The `session:pause` handler: guard on a falsy session id, then an
unconditional Prisma update to PAUSED (throwing if the row is missing),
then a status broadcast. -/
def sessionPause (st : ServerState) (sessionId : String) : ServerState :=
  if sessionId = "" then st
  else
    match alUpdate st.sessions sessionId
        (fun r => { r with status := SessionStatus.paused }) with
    | none => st
    | some sessions =>
      emit { st with sessions := sessions }
        (OutEvent.sessionStatus sessionId SessionStatus.paused none)

/-- The `session:resume` handler: like pause, but sets RECORDING. -/
def sessionResume (st : ServerState) (sessionId : String) : ServerState :=
  if sessionId = "" then st
  else
    match alUpdate st.sessions sessionId
        (fun r => { r with status := SessionStatus.recording }) with
    | none => st
    | some sessions =>
      emit { st with sessions := sessions }
        (OutEvent.sessionStatus sessionId SessionStatus.recording none)

/-- The transcript assembly of the `session:stop` handler (lines 145-146):
`buffer.get(sessionId) ?? []`, then join the chunk texts with newlines in
buffer (arrival) order; an absent text joins as the empty string. -/
def joinTexts (cs : List ChunkPayload) : String :=
  String.intercalate "\n" (cs.map (fun c => c.text.getD ""))

/-- The transcript `session:stop` builds for a session in a given state. -/
def assembleTranscript (st : ServerState) (sessionId : String) : String :=
  joinTexts ((alLookup st.buffer sessionId).getD [])

/-- One `tx.transcriptChunk.upsert` of the finalization transaction, keyed by
`(sessionId, sequence)`: an existing row has its text, speaker tag and
confidence replaced; a missing row is created in full. -/
def upsertChunkRow (rows : List ((String × Nat) × ChunkRow)) (c : ChunkPayload) :
    List ((String × Nat) × ChunkRow) :=
  match alLookup rows (c.sessionId, c.sequence) with
  | some old =>
    alSet rows (c.sessionId, c.sequence)
      { old with
        text := c.text.getD "", speakerTag := c.speakerTag,
        confidence := c.confidence }
  | none =>
    alSet rows (c.sessionId, c.sequence)
      { text := c.text.getD "", speakerTag := c.speakerTag,
        startedAt := c.startedAt, endedAt := c.endedAt,
        confidence := c.confidence }

/-- The summarization step of `session:stop`: a falsy (empty) transcript
skips summarization and yields `null`; otherwise `summarizeTranscript` runs
and its error, if any, propagates to the handler's `catch`. -/
def summaryStep (transcript : String) (configured : Bool)
    (ext : String → Except String String)
    (parseJson : String → Option GeminiSummary) :
    Except String (Option GeminiSummary) :=
  if transcript = "" then Except.ok none
  else (summarizeTranscript configured transcript ext parseJson).map some

/-- The `catch` branch of `session:stop`: set the session to FAILED,
broadcast an error event; the `finally` discards the buffer entry. -/
def finalizeFailure (st : ServerState) (sessionId : String) : ServerState :=
  let sessions :=
    (alUpdate st.sessions sessionId
      (fun r => { r with status := SessionStatus.failed })).getD st.sessions
  let st' := emit { st with sessions := sessions }
    (OutEvent.sessionError "Failed to process summary")
  { st' with buffer := alErase st'.buffer sessionId }

/-- The `session:stop` handler: guard on a falsy id; broadcast PROCESSING;
assemble the transcript from the buffer; Prisma-update the session to
PROCESSING setting `endedAt` (a missing row throws before the `try`, so the
buffer is then not discarded); run summarization (skipped for an empty
transcript); run the atomic Prisma transaction upserting every buffered
chunk and the summary (`txOk` is the commit oracle — on `false` the
transaction throws and no row write is applied); on success set COMPLETED
and broadcast it with the summary; on any error set FAILED and broadcast an
error; in both outcomes discard the buffer entry. -/
def sessionStop (st : ServerState) (sessionId : String) (configured : Bool)
    (ext : String → Except String String)
    (parseJson : String → Option GeminiSummary) (txOk : Bool) : ServerState :=
  if sessionId = "" then st
  else
    let st1 := emit st (OutEvent.sessionStatus sessionId SessionStatus.processing none)
    let chunks := (alLookup st1.buffer sessionId).getD []
    let transcript := assembleTranscript st1 sessionId
    match alUpdate st1.sessions sessionId
        (fun r => { r with status := SessionStatus.processing, ended := true }) with
    | none => st1
    | some sessions =>
      let st2 := { st1 with sessions := sessions }
      match summaryStep transcript configured ext parseJson with
      | Except.error _ => finalizeFailure st2 sessionId
      | Except.ok summary =>
        if txOk then
          let chunkRows := chunks.foldl upsertChunkRow st2.chunkRows
          let summaries :=
            match summary with
            | some s => alSet st2.summaries sessionId s
            | none => st2.summaries
          let sessions2 :=
            (alUpdate st2.sessions sessionId
              (fun r => { r with status := SessionStatus.completed })).getD st2.sessions
          let st3 := emit
            { st2 with
              chunkRows := chunkRows, summaries := summaries,
              sessions := sessions2 }
            (OutEvent.sessionStatus sessionId SessionStatus.completed summary)
          { st3 with buffer := alErase st3.buffer sessionId }
        else finalizeFailure st2 sessionId

/-! ### Client recorder machine (src/unnamed/part_001) — TRANSCRIPT action -/

/-- The `TranscriptUpdate` payload of src/types/session. -/
structure TranscriptUpdate where
  sessionId : String
  sequence : Nat
  text : String
  speakerTag : String
  confidence : Option Nat
deriving DecidableEq

/-- The comparator `(a, b) => a.sequence - b.sequence` of the client's
`Array.prototype.sort` call, as a Boolean ordering. -/
def seqLe (a b : TranscriptUpdate) : Bool :=
  a.sequence ≤ b.sequence

/-- The `TRANSCRIPT` action of the client recorder machine: if an entry with
the incoming update's sequence already exists (`findIndex >= 0`) it is
replaced at its position; otherwise the update is appended and the whole
list re-sorted by sequence (`Array.prototype.sort` is stable, modelled by
`List.mergeSort`). -/
def transcriptAction (l : List TranscriptUpdate) (u : TranscriptUpdate) :
    List TranscriptUpdate :=
  match l.findIdx? (fun c => c.sequence == u.sequence) with
  | some i => l.set i u
  | none => (l ++ [u]).mergeSort seqLe

/-- The invariant of the in-context transcript list: sequences strictly
ascend, hence at most one entry per sequence number and ascending order. -/
def seqSorted (l : List TranscriptUpdate) : Prop :=
  List.Sorted (· < ·) (l.map (fun c => c.sequence))

instance (l : List TranscriptUpdate) : Decidable (seqSorted l) := by
  unfold seqSorted List.Sorted
  infer_instance

/-! ### Helper lemmas -/

theorem alLookup_alSet_self {κ ν : Type} [DecidableEq κ] (l : List (κ × ν)) (k : κ) (v : ν) :
    alLookup (alSet l k v) k = some v := by
  induction l with
  | nil => simp [alSet, alLookup]
  | cons hd tl ih =>
    obtain ⟨k', v'⟩ := hd
    by_cases h : k' = k
    · simp [alSet, alLookup, h]
    · simp [alSet, alLookup, h, ih]

theorem alLookup_alSet_ne {κ ν : Type} [DecidableEq κ] (l : List (κ × ν)) (k k' : κ) (v : ν)
    (h : k' ≠ k) : alLookup (alSet l k v) k' = alLookup l k' := by
  induction l with
  | nil =>
    simp only [alSet, alLookup]
    rw [if_neg (fun hh => h hh.symm)]
  | cons hd tl ih =>
    obtain ⟨k₁, v₁⟩ := hd
    by_cases h1 : k₁ = k
    · simp only [alSet, if_pos h1, alLookup]
      rw [if_neg (fun hh => h hh.symm), if_neg (fun hh => h (h1 ▸ hh).symm)]
    · simp only [alSet, if_neg h1, alLookup]
      rw [ih]

theorem alUpdate_of_lookup {κ ν : Type} [DecidableEq κ] {l : List (κ × ν)} {k : κ} {v : ν}
    (f : ν → ν) (h : alLookup l k = some v) :
    ∃ l', alUpdate l k f = some l' ∧ alLookup l' k = some (f v) ∧
      ∀ k', k' ≠ k → alLookup l' k' = alLookup l k' := by
  induction l with
  | nil => simp [alLookup] at h
  | cons hd tl ih =>
    obtain ⟨k₁, v₁⟩ := hd
    by_cases h1 : k₁ = k
    · rw [alLookup, if_pos h1] at h
      obtain rfl : v₁ = v := by simpa using h
      refine ⟨(k₁, f v₁) :: tl, ?_, ?_, ?_⟩
      · rw [alUpdate, if_pos h1]
      · rw [alLookup, if_pos h1]
      · intro k' hk'
        rw [alLookup, alLookup, if_neg (fun hh => hk' (hh.symm.trans h1)),
          if_neg (fun hh => hk' (hh.symm.trans h1))]
    · rw [alLookup, if_neg h1] at h
      obtain ⟨l', hl', hlook, hother⟩ := ih h
      refine ⟨(k₁, v₁) :: l', ?_, ?_, ?_⟩
      · rw [alUpdate, if_neg h1, hl', Option.map_some']
      · rw [alLookup, if_neg h1, hlook]
      · intro k' hk'
        rw [alLookup, alLookup]
        by_cases h2 : k₁ = k'
        · rw [if_pos h2, if_pos h2]
        · rw [if_neg h2, if_neg h2, hother k' hk']

theorem countKey_cons {κ ν : Type} [DecidableEq κ] (k₁ : κ) (v₁ : ν)
    (tl : List (κ × ν)) (k : κ) :
    countKey ((k₁, v₁) :: tl) k = (if k₁ = k then 1 else 0) + countKey tl k := by
  by_cases h : k₁ = k
  · subst h
    simp only [countKey, List.filter_cons, decide_eq_true_eq, if_pos rfl, if_pos trivial,
      List.length_cons]
    omega
  · simp [countKey, List.filter_cons, h]

theorem countKey_alSet_of_zero {κ ν : Type} [DecidableEq κ] {l : List (κ × ν)} {k : κ}
    (v : ν) (h : countKey l k = 0) : countKey (alSet l k v) k = 1 := by
  induction l with
  | nil => simp [alSet, countKey]
  | cons hd tl ih =>
    obtain ⟨k₁, v₁⟩ := hd
    rw [countKey_cons] at h
    by_cases h1 : k₁ = k
    · rw [if_pos h1] at h
      omega
    · rw [if_neg h1] at h
      simp only [Nat.zero_add] at h
      rw [alSet, if_neg h1, countKey_cons, if_neg h1, ih h]

theorem countKey_alSet_of_one {κ ν : Type} [DecidableEq κ] {l : List (κ × ν)} {k : κ}
    (v : ν) (h : countKey l k = 1) : countKey (alSet l k v) k = 1 := by
  induction l with
  | nil => simp [countKey] at h
  | cons hd tl ih =>
    obtain ⟨k₁, v₁⟩ := hd
    rw [countKey_cons] at h
    by_cases h1 : k₁ = k
    · rw [if_pos h1] at h
      rw [alSet, if_pos h1, countKey_cons, if_pos rfl]
      omega
    · rw [if_neg h1] at h
      simp only [Nat.zero_add] at h
      rw [alSet, if_neg h1, countKey_cons, if_neg h1, ih h]

theorem countKey_zero_lookup {κ ν : Type} [DecidableEq κ] {l : List (κ × ν)} {k : κ}
    (h : countKey l k = 0) : alLookup l k = none := by
  induction l with
  | nil => simp [alLookup]
  | cons hd tl ih =>
    obtain ⟨k₁, v₁⟩ := hd
    rw [countKey_cons] at h
    by_cases h1 : k₁ = k
    · rw [if_pos h1] at h
      omega
    · rw [if_neg h1] at h
      simp only [Nat.zero_add] at h
      rw [alLookup, if_neg h1, ih h]

theorem alLookup_alErase_self {κ ν : Type} [DecidableEq κ] (l : List (κ × ν)) (k : κ) :
    alLookup (alErase l k) k = none := by
  induction l with
  | nil => simp [alErase, alLookup]
  | cons hd tl ih =>
    obtain ⟨k₁, v₁⟩ := hd
    by_cases h1 : k₁ = k
    · simp only [alErase, if_pos h1, ih]
    · rw [alErase, if_neg h1, alLookup, if_neg h1, ih]

theorem intercalate_three (a b c : String) :
    String.intercalate "\n" [a, b, c] = a ++ "\n" ++ b ++ "\n" ++ c := by
  show String.intercalate.go a "\n" [b, c] = _
  show String.intercalate.go (a ++ "\n" ++ b) "\n" [c] = _
  show a ++ "\n" ++ b ++ "\n" ++ c = _
  rfl

theorem list_set_self {α : Type} {l : List α} {i : Nat} {a : α}
    (h : l[i]? = some a) : l.set i a = l := by
  induction l generalizing i with
  | nil => simp at h
  | cons x xs ih =>
    cases i with
    | zero =>
      simp only [List.getElem?_cons_zero, Option.some.injEq] at h
      simp [h]
    | succ n =>
      simp only [List.getElem?_cons_succ] at h
      simp [ih h]

theorem bufferInsert_lookup (buf : List (String × List ChunkPayload)) (p : ChunkPayload) :
    alLookup (bufferInsert buf p) p.sessionId =
      some ((alLookup buf p.sessionId).getD [] ++ [p]) := by
  unfold bufferInsert
  cases h : alLookup buf p.sessionId with
  | none => simp [h, alLookup_alSet_self]
  | some store => simp [h, alLookup_alSet_self]

/-- Characterization of the `session:stop` success path: with an existing
session, a summarization step yielding `s?`, and a committing transaction,
the session ends COMPLETED, the buffered chunks are upserted into the
durable chunk table, the summary (when present) is upserted, PROCESSING and
COMPLETED status events are broadcast, and the buffer entry is discarded. -/
theorem sessionStop_commit (st : ServerState) (sid : String) (configured : Bool)
    (ext : String → Except String String) (parseJson : String → Option GeminiSummary)
    (r : SessionRow) (s? : Option GeminiSummary)
    (hsid : sid ≠ "") (hr : alLookup st.sessions sid = some r)
    (hsum : summaryStep (assembleTranscript st sid) configured ext parseJson =
      Except.ok s?) :
    (alLookup (sessionStop st sid configured ext parseJson true).sessions sid).map
        (fun row => row.status) = some SessionStatus.completed ∧
    (sessionStop st sid configured ext parseJson true).chunkRows =
      ((alLookup st.buffer sid).getD []).foldl upsertChunkRow st.chunkRows ∧
    (sessionStop st sid configured ext parseJson true).summaries =
      s?.elim st.summaries (fun s => alSet st.summaries sid s) ∧
    (sessionStop st sid configured ext parseJson true).emitted =
      st.emitted ++ [OutEvent.sessionStatus sid SessionStatus.processing none,
        OutEvent.sessionStatus sid SessionStatus.completed s?] ∧
    alLookup (sessionStop st sid configured ext parseJson true).buffer sid = none := by
  obtain ⟨l1, hl1, hlook1, -⟩ := alUpdate_of_lookup
    (fun row => { row with status := SessionStatus.processing, ended := true }) hr
  obtain ⟨l2, hl2, hlook2, -⟩ := alUpdate_of_lookup
    (fun row => { row with status := SessionStatus.completed }) hlook1
  have hsum' : summaryStep (joinTexts ((alLookup st.buffer sid).getD []))
      configured ext parseJson = Except.ok s? := by
    simpa [assembleTranscript] using hsum
  unfold sessionStop
  rw [if_neg hsid]
  simp only [emit, assembleTranscript]
  rw [hl1]
  simp only []
  rw [hsum']
  simp only [if_pos rfl]
  rw [hl2]
  simp only [Option.getD_some]
  refine ⟨?_, ?_, ?_, ?_, ?_⟩
  · simp [hlook2]
  · rfl
  · cases s? <;> rfl
  · simp
  · exact alLookup_alErase_self _ _

/-- Characterization of the `catch` branch of `session:stop`. -/
theorem finalizeFailure_char (st : ServerState) (sid : String) (r : SessionRow)
    (hr : alLookup st.sessions sid = some r) :
    (alLookup (finalizeFailure st sid).sessions sid).map (fun row => row.status) =
      some SessionStatus.failed ∧
    (finalizeFailure st sid).chunkRows = st.chunkRows ∧
    (finalizeFailure st sid).summaries = st.summaries ∧
    (finalizeFailure st sid).emitted =
      st.emitted ++ [OutEvent.sessionError "Failed to process summary"] ∧
    alLookup (finalizeFailure st sid).buffer sid = none := by
  obtain ⟨l3, hl3, hlook3, -⟩ := alUpdate_of_lookup
    (fun row => { row with status := SessionStatus.failed }) hr
  unfold finalizeFailure
  rw [hl3]
  simp only [Option.getD_some, emit]
  refine ⟨by simp [hlook3], trivial, trivial, trivial, alLookup_alErase_self _ _⟩

/-- Characterization of `session:stop` when the persistence transaction
fails: the session ends FAILED, no chunk or summary row from the attempt is
visible, an error event follows the PROCESSING broadcast, and the buffer is
discarded. -/
theorem sessionStop_txFail (st : ServerState) (sid : String) (configured : Bool)
    (ext : String → Except String String) (parseJson : String → Option GeminiSummary)
    (r : SessionRow) (s? : Option GeminiSummary)
    (hsid : sid ≠ "") (hr : alLookup st.sessions sid = some r)
    (hsum : summaryStep (assembleTranscript st sid) configured ext parseJson =
      Except.ok s?) :
    (alLookup (sessionStop st sid configured ext parseJson false).sessions sid).map
        (fun row => row.status) = some SessionStatus.failed ∧
    (sessionStop st sid configured ext parseJson false).chunkRows = st.chunkRows ∧
    (sessionStop st sid configured ext parseJson false).summaries = st.summaries ∧
    (sessionStop st sid configured ext parseJson false).emitted =
      st.emitted ++ [OutEvent.sessionStatus sid SessionStatus.processing none,
        OutEvent.sessionError "Failed to process summary"] ∧
    alLookup (sessionStop st sid configured ext parseJson false).buffer sid = none := by
  obtain ⟨l1, hl1, hlook1, -⟩ := alUpdate_of_lookup
    (fun row => { row with status := SessionStatus.processing, ended := true }) hr
  have hsum' : summaryStep (joinTexts ((alLookup st.buffer sid).getD []))
      configured ext parseJson = Except.ok s? := by
    simpa [assembleTranscript] using hsum
  unfold sessionStop
  rw [if_neg hsid]
  simp only [emit, assembleTranscript]
  rw [hl1]
  simp only []
  rw [hsum']
  have hfalse : ¬ (false = true) := by decide
  simp only [if_neg hfalse]
  have hchar := finalizeFailure_char
    { users := st.users, sessions := l1, chunkRows := st.chunkRows,
      summaries := st.summaries, buffer := st.buffer,
      emitted := st.emitted ++ [OutEvent.sessionStatus sid SessionStatus.processing none] }
    sid _ hlook1
  obtain ⟨h1, h2, h3, h4, h5⟩ := hchar
  refine ⟨h1, h2, h3, ?_, h5⟩
  rw [h4]
  simp

/-- Characterization of `session:stop` when the summarization step throws:
the `catch` marks the session FAILED regardless of the transaction oracle. -/
theorem sessionStop_sumFail (st : ServerState) (sid : String) (configured : Bool)
    (ext : String → Except String String) (parseJson : String → Option GeminiSummary)
    (r : SessionRow) (e : String) (txOk : Bool)
    (hsid : sid ≠ "") (hr : alLookup st.sessions sid = some r)
    (hsum : summaryStep (assembleTranscript st sid) configured ext parseJson =
      Except.error e) :
    (alLookup (sessionStop st sid configured ext parseJson txOk).sessions sid).map
        (fun row => row.status) = some SessionStatus.failed ∧
    (sessionStop st sid configured ext parseJson txOk).chunkRows = st.chunkRows ∧
    (sessionStop st sid configured ext parseJson txOk).summaries = st.summaries ∧
    (sessionStop st sid configured ext parseJson txOk).emitted =
      st.emitted ++ [OutEvent.sessionStatus sid SessionStatus.processing none,
        OutEvent.sessionError "Failed to process summary"] ∧
    alLookup (sessionStop st sid configured ext parseJson txOk).buffer sid = none := by
  obtain ⟨l1, hl1, hlook1, -⟩ := alUpdate_of_lookup
    (fun row => { row with status := SessionStatus.processing, ended := true }) hr
  have hsum' : summaryStep (joinTexts ((alLookup st.buffer sid).getD []))
      configured ext parseJson = Except.error e := by
    simpa [assembleTranscript] using hsum
  unfold sessionStop
  rw [if_neg hsid]
  simp only [emit, assembleTranscript]
  rw [hl1]
  simp only []
  rw [hsum']
  have hchar := finalizeFailure_char
    { users := st.users, sessions := l1, chunkRows := st.chunkRows,
      summaries := st.summaries, buffer := st.buffer,
      emitted := st.emitted ++ [OutEvent.sessionStatus sid SessionStatus.processing none] }
    sid _ hlook1
  obtain ⟨h1, h2, h3, h4, h5⟩ := hchar
  refine ⟨h1, h2, h3, ?_, h5⟩
  rw [h4]
  simp

/-- Characterization of `session:chunk` when the payload carries non-empty
text: transcription is skipped, the payload is buffered as delivered, and
its text is broadcast. -/
theorem sessionChunk_text_char (st : ServerState) (p : ChunkPayload) (configured : Bool)
    (ext : Except String TranscriptionResult)
    (hv : validChunk p = true) (hnb : isBlank p.text = false) :
    sessionChunk st p configured ext =
      emit { st with buffer := bufferInsert st.buffer p }
        (OutEvent.transcriptionUpdate p.sessionId p.sequence (p.text.getD "")
          p.speakerTag p.confidence) := by
  unfold sessionChunk
  rw [hv, hnb]
  simp

/-- Characterization of `session:chunk` when the payload carries no (or
empty) text and `transcribeAudio` returns a result: the buffered payload is
updated in place with the transcription, which is then broadcast. -/
theorem sessionChunk_transcribed_char (st : ServerState) (p : ChunkPayload)
    (configured : Bool) (ext : Except String TranscriptionResult)
    (t : TranscriptionResult)
    (hv : validChunk p = true) (hnb : isBlank p.text = true)
    (haudio : (p.audio == "") = false)
    (ht : transcribeAudio configured ext = Except.ok t) :
    sessionChunk st p configured ext =
      emit { st with
        buffer := bufferInsert st.buffer
          { p with
            text := some t.text, speakerTag := t.speakerTag,
            confidence := t.confidence } }
        (OutEvent.transcriptionUpdate p.sessionId p.sequence t.text
          t.speakerTag t.confidence) := by
  unfold sessionChunk
  rw [hv, hnb, haudio, ht]
  simp

/-! ### Concrete runs used by counterexamples and witnesses -/

/-- A chunk payload with fixed timing and audio fields. -/
def mkChunk (sid : String) (n : Nat) (t : String) : ChunkPayload :=
  { sessionId := sid, sequence := n, startedAt := 0, endedAt := 0,
    speakerTag := "speaker", audio := "QUJDREVGR0hJSg==", text := some t,
    confidence := none }

/-- A transcription oracle that is never consulted by chunks carrying text. -/
def unusedTranscription : Except String TranscriptionResult :=
  Except.error "unused"

/-- A summarization capability returning a fixed raw response. -/
def okSummarizer : String → Except String String :=
  fun _ => Except.ok "RAW"

/-- A JSON-parse oracle that always fails (unparseable response). -/
def noParse : String → Option GeminiSummary :=
  fun _ => none

/-- A freshly started demo session `s`. -/
def demoStart : ServerState :=
  sessionStart initState "s" "u" "u@example.com" RecordingSource.mic

/-- The demo session stopped with no chunks: finalization runs on an empty
transcript and commits, leaving the session COMPLETED. -/
def completedState : ServerState :=
  sessionStop demoStart "s" true okSummarizer noParse true

/-- The session row created for the demo session by `session:start`. -/
def recordingRow : SessionRow :=
  { userId := "u", status := SessionStatus.recording,
    source := RecordingSource.mic, ended := false }

/-- The demo session row after a committed finalization. -/
def completedRow : SessionRow :=
  { userId := "u", status := SessionStatus.completed,
    source := RecordingSource.mic, ended := true }

/-- The demo session after one chunk with text "hello". -/
def chunkedState : ServerState :=
  sessionChunk demoStart (mkChunk "s" 1 "hello") true unusedTranscription

/-- The demo session after chunks delivered in arrival order with sequences
3, 1, 2 and texts "c", "a", "b". -/
def run312 : ServerState :=
  sessionChunk (sessionChunk (sessionChunk demoStart
    (mkChunk "s" 3 "c") true unusedTranscription)
    (mkChunk "s" 1 "a") true unusedTranscription)
    (mkChunk "s" 2 "b") true unusedTranscription

/-- The demo session after two chunks delivered with the same sequence 1. -/
def dupState : ServerState :=
  sessionChunk (sessionChunk demoStart (mkChunk "s" 1 "x") true unusedTranscription)
    (mkChunk "s" 1 "y") true unusedTranscription

/-- A summarization capability whose external call errors. -/
def failingSummarizer : String → Except String String :=
  fun _ => Except.error "capability error"

/-- A chunk payload carrying audio but no text, so the server attempts
transcription. -/
def audioChunk : ChunkPayload :=
  { sessionId := "s", sequence := 1, startedAt := 0, endedAt := 0,
    speakerTag := "speaker", audio := "QUJDREVGR0hJSg==", text := none,
    confidence := none }

theorem intercalate_two (a b : String) :
    String.intercalate "\n" [a, b] = a ++ "\n" ++ b := by
  show String.intercalate.go a "\n" [b] = _
  show a ++ "\n" ++ b = _
  rfl

/-! ### C1 — transcript assembly order at finalization -/

/-- C1 counterexample: for chunks delivered in arrival order with sequences
3, 1, 2 the transcript `session:stop` builds is the arrival-order join
"c\na\nb", not the sequence-ordered join "a\nb\nc"; the finalization run
feeds exactly that arrival-order transcript to summarization (visible in
the persisted degraded summary, whose keyPoints preserve the prompt). -/
theorem c1_transcript_not_sequence_ordered :
    assembleTranscript run312 "s" = "c\na\nb" ∧
    assembleTranscript run312 "s" ≠ "a" ++ "\n" ++ "b" ++ "\n" ++ "c" ∧
    alLookup (sessionStop run312 "s" true (fun prompt => Except.ok prompt)
      noParse true).summaries "s" =
      some (summaryFallback (summaryPrompt "c\na\nb")) := by
  decide

/-- C1 (amended): the transcript built at finalization is the newline-joined
concatenation of the buffered chunks' texts in ARRIVAL order (the buffer is
never sorted by sequence); in particular, for chunks delivered in arrival
order with sequences 3, 1, 2 the finalized transcript is the
chunk-3-then-1-then-2 concatenation. -/
theorem c1_transcript_joins_in_arrival_order (sid uid email : String)
    (src : RecordingSource) (p1 p2 p3 : ChunkPayload) (t1 t2 t3 : String)
    (cf1 cf2 cf3 : Bool) (e1 e2 e3 : Except String TranscriptionResult)
    (hs1 : p1.sessionId = sid) (hs2 : p2.sessionId = sid) (hs3 : p3.sessionId = sid)
    (hq1 : p1.sequence = 1) (hq2 : p2.sequence = 2) (hq3 : p3.sequence = 3)
    (hv1 : validChunk p1 = true) (hv2 : validChunk p2 = true) (hv3 : validChunk p3 = true)
    (ht1 : p1.text = some t1) (ht2 : p2.text = some t2) (ht3 : p3.text = some t3)
    (hn1 : t1 ≠ "") (hn2 : t2 ≠ "") (hn3 : t3 ≠ "") :
    assembleTranscript
      (sessionChunk (sessionChunk (sessionChunk
        (sessionStart initState sid uid email src) p3 cf3 e3) p1 cf1 e1) p2 cf2 e2)
      sid = t3 ++ "\n" ++ t1 ++ "\n" ++ t2 := by
  have hnb1 : isBlank p1.text = false := by
    rw [ht1]
    simp [isBlank, hn1]
  have hnb2 : isBlank p2.text = false := by
    rw [ht2]
    simp [isBlank, hn2]
  have hnb3 : isBlank p3.text = false := by
    rw [ht3]
    simp [isBlank, hn3]
  rw [sessionChunk_text_char _ p3 cf3 e3 hv3 hnb3,
    sessionChunk_text_char _ p1 cf1 e1 hv1 hnb1,
    sessionChunk_text_char _ p2 cf2 e2 hv2 hnb2]
  simp only [assembleTranscript, emit]
  have hb0 : alLookup (sessionStart initState sid uid email src).buffer sid =
      some [] := by
    simp [sessionStart, emit, initState, alSet, alLookup]
  have hb3 : alLookup
      (bufferInsert (sessionStart initState sid uid email src).buffer p3) sid =
      some [p3] := by
    rw [← hs3]
    rw [bufferInsert_lookup, hs3, hb0]
    simp
  have hb1 : alLookup (bufferInsert
      (bufferInsert (sessionStart initState sid uid email src).buffer p3) p1) sid =
      some [p3, p1] := by
    rw [← hs1]
    rw [bufferInsert_lookup, hs1, hb3]
    simp
  have hb2 : alLookup (bufferInsert (bufferInsert
      (bufferInsert (sessionStart initState sid uid email src).buffer p3) p1) p2) sid =
      some [p3, p1, p2] := by
    rw [← hs2]
    rw [bufferInsert_lookup, hs2, hb1]
    simp
  rw [hb2]
  simp only [Option.getD_some, joinTexts, List.map_cons, List.map_nil,
    ht1, ht2, ht3, Option.getD_some]
  exact intercalate_three t3 t1 t2

/-- Witness for C1 (amended) at the concrete run `run312`. -/
theorem c1_transcript_joins_in_arrival_order_witness :
    ((mkChunk "s" 1 "a").sessionId = "s" ∧ (mkChunk "s" 2 "b").sessionId = "s" ∧
      (mkChunk "s" 3 "c").sessionId = "s" ∧ (mkChunk "s" 1 "a").sequence = 1 ∧
      (mkChunk "s" 2 "b").sequence = 2 ∧ (mkChunk "s" 3 "c").sequence = 3 ∧
      validChunk (mkChunk "s" 1 "a") = true ∧ validChunk (mkChunk "s" 2 "b") = true ∧
      validChunk (mkChunk "s" 3 "c") = true ∧ (mkChunk "s" 1 "a").text = some "a" ∧
      (mkChunk "s" 2 "b").text = some "b" ∧ (mkChunk "s" 3 "c").text = some "c" ∧
      ("a" : String) ≠ "" ∧ ("b" : String) ≠ "" ∧ ("c" : String) ≠ "") ∧
    assembleTranscript run312 "s" = "c" ++ "\n" ++ "a" ++ "\n" ++ "b" :=
  ⟨by decide,
    c1_transcript_joins_in_arrival_order "s" "u" "u@example.com"
      RecordingSource.mic (mkChunk "s" 1 "a") (mkChunk "s" 2 "b") (mkChunk "s" 3 "c")
      "a" "b" "c" true true true
      unusedTranscription unusedTranscription unusedTranscription
      (by decide) (by decide) (by decide) (by decide) (by decide) (by decide)
      (by decide) (by decide) (by decide) (by decide) (by decide) (by decide)
      (by decide) (by decide) (by decide)⟩

/-! ### C2 — re-delivery of an already-seen (sessionId, sequence) -/

/-- C2 counterexample: delivering a second chunk with an already-present
sequence is NOT replaced in place — the buffer appends it and afterwards
holds two chunks with sequence 1. -/
theorem c2_buffer_appends_duplicate :
    ((alLookup dupState.buffer "s").getD []).map (fun c => c.sequence) = [1, 1] ∧
    ((alLookup dupState.buffer "s").getD []).length = 2 := by
  decide

/-- C2 (amended): re-delivering a chunk with an already-seen sequence is
appended to the in-memory buffer (which may therefore hold several chunks
per sequence), but the durable store after a committed finalization holds
exactly one TranscriptChunk row per `(sessionId, sequence)` and its text is
that of the latest delivery. -/
theorem c2_redelivery_appends_but_durable_once (st st2 : ServerState)
    (sid : String) (r : SessionRow) (p q : ChunkPayload) (tp tq : String)
    (cfp cfq : Bool) (ep eq' : Except String TranscriptionResult)
    (hchain : st2 = sessionChunk (sessionChunk st p cfp ep) q cfq eq')
    (hsid : sid ≠ "") (hr : alLookup st.sessions sid = some r)
    (hbuf : alLookup st.buffer sid = some [])
    (hrows : countKey st.chunkRows (sid, p.sequence) = 0)
    (hsp : p.sessionId = sid) (hsq : q.sessionId = sid)
    (hqq : q.sequence = p.sequence)
    (hvp : validChunk p = true) (hvq : validChunk q = true)
    (htp : p.text = some tp) (htq : q.text = some tq)
    (hnp : tp ≠ "") (hnq : tq ≠ "") :
    alLookup st2.buffer sid = some [p, q] ∧
    (∀ (sumCfg : Bool) (ext : String → Except String String)
      (parse : String → Option GeminiSummary) (s? : Option GeminiSummary),
      summaryStep (tp ++ "\n" ++ tq) sumCfg ext parse = Except.ok s? →
      countKey (sessionStop st2 sid sumCfg ext parse true).chunkRows
        (sid, p.sequence) = 1 ∧
      (alLookup (sessionStop st2 sid sumCfg ext parse true).chunkRows
        (sid, p.sequence)).map (fun row => row.text) = some tq) := by
  have hnbp : isBlank p.text = false := by
    rw [htp]
    simp [isBlank, hnp]
  have hnbq : isBlank q.text = false := by
    rw [htq]
    simp [isBlank, hnq]
  have hchain' : st2 = emit { sessionChunk st p cfp ep with
      buffer := bufferInsert (sessionChunk st p cfp ep).buffer q }
      (OutEvent.transcriptionUpdate q.sessionId q.sequence (q.text.getD "")
        q.speakerTag q.confidence) := by
    rw [hchain, sessionChunk_text_char _ q cfq eq' hvq hnbq]
  have hsess : st2.sessions = st.sessions := by
    rw [hchain', sessionChunk_text_char st p cfp ep hvp hnbp]
    rfl
  have hcrows : st2.chunkRows = st.chunkRows := by
    rw [hchain', sessionChunk_text_char st p cfp ep hvp hnbp]
    rfl
  have hbuf2 : st2.buffer = bufferInsert (bufferInsert st.buffer p) q := by
    rw [hchain', sessionChunk_text_char st p cfp ep hvp hnbp]
    rfl
  have hbp : alLookup (bufferInsert st.buffer p) sid = some [p] := by
    rw [← hsp, bufferInsert_lookup, hsp, hbuf]
    simp
  have hbq : alLookup st2.buffer sid = some [p, q] := by
    rw [hbuf2, ← hsq, bufferInsert_lookup, hsq, hbp]
    simp
  refine ⟨hbq, ?_⟩
  intro sumCfg ext parse s? hsumval
  have htr : assembleTranscript st2 sid = tp ++ "\n" ++ tq := by
    simp only [assembleTranscript]
    rw [hbq]
    simp only [Option.getD_some, joinTexts, List.map_cons, List.map_nil, htp, htq,
      Option.getD_some]
    exact intercalate_two tp tq
  have hsum : summaryStep (assembleTranscript st2 sid) sumCfg ext parse =
      Except.ok s? := by
    rw [htr]
    exact hsumval
  obtain ⟨h1, h2, h3, h4, h5⟩ := sessionStop_commit st2 sid sumCfg ext parse r s?
    hsid (by rw [hsess]; exact hr) hsum
  rw [h2, hbq, hcrows]
  simp only [Option.getD_some, List.foldl_cons, List.foldl_nil]
  have hlookp : alLookup st.chunkRows (p.sessionId, p.sequence) = none := by
    rw [hsp]
    exact countKey_zero_lookup hrows
  have hrow1 : upsertChunkRow st.chunkRows p =
      alSet st.chunkRows (p.sessionId, p.sequence)
        { text := p.text.getD "", speakerTag := p.speakerTag,
          startedAt := p.startedAt, endedAt := p.endedAt,
          confidence := p.confidence } := by
    unfold upsertChunkRow
    rw [hlookp]
  rw [hrow1]
  have hkeyq : ((q.sessionId, q.sequence) : String × Nat) =
      (p.sessionId, p.sequence) := by
    rw [hsp, hsq, hqq]
  have hlookq : alLookup (alSet st.chunkRows (p.sessionId, p.sequence)
      { text := p.text.getD "", speakerTag := p.speakerTag,
        startedAt := p.startedAt, endedAt := p.endedAt,
        confidence := p.confidence }) (q.sessionId, q.sequence) =
      some { text := p.text.getD "", speakerTag := p.speakerTag,
             startedAt := p.startedAt, endedAt := p.endedAt,
             confidence := p.confidence } := by
    rw [hkeyq]
    exact alLookup_alSet_self _ _ _
  have hrow2 : upsertChunkRow (alSet st.chunkRows (p.sessionId, p.sequence)
      { text := p.text.getD "", speakerTag := p.speakerTag,
        startedAt := p.startedAt, endedAt := p.endedAt,
        confidence := p.confidence }) q =
      alSet (alSet st.chunkRows (p.sessionId, p.sequence)
        { text := p.text.getD "", speakerTag := p.speakerTag,
          startedAt := p.startedAt, endedAt := p.endedAt,
          confidence := p.confidence }) (q.sessionId, q.sequence)
        { text := q.text.getD "", speakerTag := q.speakerTag,
          startedAt := p.startedAt, endedAt := p.endedAt,
          confidence := q.confidence } := by
    unfold upsertChunkRow
    rw [hlookq]
  rw [hrow2, hkeyq, hsp]
  constructor
  · exact countKey_alSet_of_one _ (countKey_alSet_of_zero _ hrows)
  · rw [alLookup_alSet_self, htq]
    rfl

/-- Witness for C2 (amended) at the concrete duplicate-delivery run. -/
theorem c2_redelivery_appends_but_durable_once_witness :
    (("s" : String) ≠ "" ∧ alLookup demoStart.sessions "s" = some recordingRow ∧
      alLookup demoStart.buffer "s" = some [] ∧
      countKey demoStart.chunkRows ("s", 1) = 0 ∧
      summaryStep ("x" ++ "\n" ++ "y") true okSummarizer noParse =
        Except.ok (some (summaryFallback "RAW"))) ∧
    alLookup dupState.buffer "s" = some [mkChunk "s" 1 "x", mkChunk "s" 1 "y"] ∧
    countKey (sessionStop dupState "s" true okSummarizer noParse true).chunkRows
      ("s", 1) = 1 ∧
    (alLookup (sessionStop dupState "s" true okSummarizer noParse
      true).chunkRows ("s", 1)).map (fun row => row.text) = some "y" :=
  by
  have hmain := c2_redelivery_appends_but_durable_once demoStart dupState "s"
    recordingRow (mkChunk "s" 1 "x") (mkChunk "s" 1 "y") "x" "y" true true
    unusedTranscription unusedTranscription rfl
    (by decide) (by decide) (by decide) (by decide) (by decide) (by decide)
    (by decide) (by decide) (by decide) (by decide) (by decide) (by decide)
    (by decide)
  have hinner := hmain.2 true okSummarizer noParse (some (summaryFallback "RAW"))
    (by rfl)
  exact ⟨⟨by decide, by decide, by decide, by decide, by rfl⟩, hmain.1,
    hinner.1, hinner.2⟩

/-! ### C3 — legality of status transitions -/

/-- C3 counterexample: pausing a COMPLETED session does not fail with
InvalidTransition and does not leave the state unchanged — the handler
unconditionally sets the status to PAUSED, a transition outside the legal
graph. -/
theorem c3_pause_after_completed :
    (alLookup completedState.sessions "s").map (fun row => row.status) =
      some SessionStatus.completed ∧
    (alLookup (sessionPause completedState "s").sessions "s").map
      (fun row => row.status) = some SessionStatus.paused ∧
    (sessionPause completedState "s").sessions ≠ completedState.sessions := by
  decide

/-- C3 (amended): the pause and resume handlers perform no transition
validation: for any existing session, whatever its current status (terminal
ones included), pause unconditionally sets PAUSED and resume unconditionally
sets RECORDING, each broadcasting the new status; no InvalidTransition
condition exists and illegal transitions mutate state. -/
theorem c3_pause_resume_unvalidated (st : ServerState) (sid : String)
    (r : SessionRow) (hsid : sid ≠ "") (hr : alLookup st.sessions sid = some r) :
    (alLookup (sessionPause st sid).sessions sid =
        some { r with status := SessionStatus.paused } ∧
      (sessionPause st sid).emitted =
        st.emitted ++ [OutEvent.sessionStatus sid SessionStatus.paused none]) ∧
    (alLookup (sessionResume st sid).sessions sid =
        some { r with status := SessionStatus.recording } ∧
      (sessionResume st sid).emitted =
        st.emitted ++ [OutEvent.sessionStatus sid SessionStatus.recording none]) := by
  obtain ⟨l1, hl1, hlook1, -⟩ := alUpdate_of_lookup
    (fun row => { row with status := SessionStatus.paused }) hr
  obtain ⟨l2, hl2, hlook2, -⟩ := alUpdate_of_lookup
    (fun row => { row with status := SessionStatus.recording }) hr
  constructor
  · unfold sessionPause
    rw [if_neg hsid, hl1]
    exact ⟨hlook1, rfl⟩
  · unfold sessionResume
    rw [if_neg hsid, hl2]
    exact ⟨hlook2, rfl⟩

/-- Witness for C3 (amended) at the COMPLETED demo session. -/
theorem c3_pause_resume_unvalidated_witness :
    (("s" : String) ≠ "" ∧
      alLookup completedState.sessions "s" = some completedRow) ∧
    ((alLookup (sessionPause completedState "s").sessions "s" = some
        { userId := "u", status := SessionStatus.paused,
          source := RecordingSource.mic, ended := true } ∧
      (sessionPause completedState "s").emitted =
        completedState.emitted ++
          [OutEvent.sessionStatus "s" SessionStatus.paused none]) ∧
     (alLookup (sessionResume completedState "s").sessions "s" = some
        { userId := "u", status := SessionStatus.recording,
          source := RecordingSource.mic, ended := true } ∧
      (sessionResume completedState "s").emitted =
        completedState.emitted ++
          [OutEvent.sessionStatus "s" SessionStatus.recording none])) :=
  ⟨⟨by decide, by decide⟩,
    c3_pause_resume_unvalidated completedState "s" completedRow
      (by decide) (by decide)⟩

/-! ### C4 — terminality of COMPLETED and FAILED -/

/-- C4 counterexample: a chunk delivered to the COMPLETED demo session is
buffered and broadcast (no SessionTerminated condition exists), and a second
stop re-runs finalization, transitioning through PROCESSING to COMPLETED
again instead of rejecting the event. -/
theorem c4_terminal_states_accept_events :
    (alLookup completedState.sessions "s").map (fun row => row.status) =
      some SessionStatus.completed ∧
    alLookup (sessionChunk completedState (mkChunk "s" 9 "late") true
      unusedTranscription).buffer "s" = some [mkChunk "s" 9 "late"] ∧
    (sessionChunk completedState (mkChunk "s" 9 "late") true
      unusedTranscription).emitted =
      completedState.emitted ++
        [OutEvent.transcriptionUpdate "s" 9 "late" "speaker" none] ∧
    (alLookup (sessionStop completedState "s" true okSummarizer noParse
      true).sessions "s").map (fun row => row.status) =
      some SessionStatus.completed ∧
    (sessionStop completedState "s" true okSummarizer noParse true).emitted =
      completedState.emitted ++
        [OutEvent.sessionStatus "s" SessionStatus.processing none,
          OutEvent.sessionStatus "s" SessionStatus.completed none] := by
  decide

/-- C4 (amended): COMPLETED and FAILED are not enforced as terminal: a valid
chunk addressed to a session in a terminal state is buffered and broadcast
like any other, and a further stop (after the first finalization discarded
the buffer) re-runs the finalization protocol, broadcasting PROCESSING and
COMPLETED again rather than reporting SessionTerminated. -/
theorem c4_terminal_not_enforced (st : ServerState) (sid : String) (r : SessionRow)
    (hsid : sid ≠ "") (hr : alLookup st.sessions sid = some r)
    (hterm : r.status = SessionStatus.completed ∨ r.status = SessionStatus.failed) :
    (∀ (p : ChunkPayload) (configured : Bool) (ext : Except String TranscriptionResult),
      p.sessionId = sid → validChunk p = true → isBlank p.text = false →
      alLookup (sessionChunk st p configured ext).buffer sid =
        some ((alLookup st.buffer sid).getD [] ++ [p]) ∧
      (sessionChunk st p configured ext).emitted =
        st.emitted ++ [OutEvent.transcriptionUpdate sid p.sequence (p.text.getD "")
          p.speakerTag p.confidence]) ∧
    (alLookup st.buffer sid = none →
      ∀ (configured : Bool) (ext : String → Except String String)
        (parseJson : String → Option GeminiSummary),
      (alLookup (sessionStop st sid configured ext parseJson true).sessions sid).map
          (fun row => row.status) = some SessionStatus.completed ∧
      (sessionStop st sid configured ext parseJson true).emitted =
        st.emitted ++ [OutEvent.sessionStatus sid SessionStatus.processing none,
          OutEvent.sessionStatus sid SessionStatus.completed none]) := by
  constructor
  · intro p configured ext hp hv hnb
    rw [sessionChunk_text_char st p configured ext hv hnb]
    refine ⟨?_, ?_⟩
    · rw [← hp]
      exact bufferInsert_lookup _ _
    · rw [← hp]
      rfl
  · intro hbuf configured ext parseJson
    have htr : assembleTranscript st sid = "" := by
      simp only [assembleTranscript, hbuf]
      rfl
    have hsum : summaryStep (assembleTranscript st sid) configured ext parseJson =
        Except.ok none := by
      rw [htr]
      simp [summaryStep]
    obtain ⟨h1, h2, h3, h4, h5⟩ :=
      sessionStop_commit st sid configured ext parseJson r none hsid hr hsum
    exact ⟨h1, h4⟩

/-- Witness for C4 (amended) at the COMPLETED demo session. -/
theorem c4_terminal_not_enforced_witness :
    (("s" : String) ≠ "" ∧
      alLookup completedState.sessions "s" = some completedRow ∧
      (completedRow.status = SessionStatus.completed ∨
        completedRow.status = SessionStatus.failed)) ∧
    ((∀ (p : ChunkPayload) (configured : Bool) (ext : Except String TranscriptionResult),
      p.sessionId = "s" → validChunk p = true → isBlank p.text = false →
      alLookup (sessionChunk completedState p configured ext).buffer "s" =
        some ((alLookup completedState.buffer "s").getD [] ++ [p]) ∧
      (sessionChunk completedState p configured ext).emitted =
        completedState.emitted ++
          [OutEvent.transcriptionUpdate "s" p.sequence (p.text.getD "")
            p.speakerTag p.confidence]) ∧
    (alLookup completedState.buffer "s" = none →
      ∀ (configured : Bool) (ext : String → Except String String)
        (parseJson : String → Option GeminiSummary),
      (alLookup (sessionStop completedState "s" configured ext parseJson
          true).sessions "s").map (fun row => row.status) =
          some SessionStatus.completed ∧
      (sessionStop completedState "s" configured ext parseJson true).emitted =
        completedState.emitted ++
          [OutEvent.sessionStatus "s" SessionStatus.processing none,
            OutEvent.sessionStatus "s" SessionStatus.completed none])) :=
  ⟨⟨by decide, by decide, by decide⟩,
    c4_terminal_not_enforced completedState "s" completedRow
      (by decide) (by decide) (by decide)⟩

/-! ### C5 — chunk acceptance precondition -/

/-- C5 counterexample: a chunk addressed to a session id the coordinator is
not tracking (no session row, no buffer entry) is not rejected with
UnknownSession — a fresh buffer entry is created for it and a transcription
update is broadcast. -/
theorem c5_unknown_session_buffered :
    alLookup initState.sessions "x" = none ∧
    alLookup initState.buffer "x" = none ∧
    alLookup (sessionChunk initState (mkChunk "x" 1 "hi") true
      unusedTranscription).buffer "x" = some [mkChunk "x" 1 "hi"] ∧
    (sessionChunk initState (mkChunk "x" 1 "hi") true unusedTranscription).emitted =
      [OutEvent.transcriptionUpdate "x" 1 "hi" "speaker" none] := by
  decide

/-- C5 (amended): chunk acceptance has no session-state precondition: a
schema-valid chunk is buffered and broadcast regardless of the addressed
session's status or existence, and a session id the coordinator is not
tracking gets a fresh buffer entry holding the chunk instead of an
UnknownSession rejection. -/
theorem c5_chunk_no_state_precondition (st : ServerState) (p : ChunkPayload)
    (configured : Bool) (ext : Except String TranscriptionResult)
    (hv : validChunk p = true) (hnb : isBlank p.text = false) :
    alLookup (sessionChunk st p configured ext).buffer p.sessionId =
      some ((alLookup st.buffer p.sessionId).getD [] ++ [p]) ∧
    (sessionChunk st p configured ext).sessions = st.sessions ∧
    (sessionChunk st p configured ext).emitted =
      st.emitted ++ [OutEvent.transcriptionUpdate p.sessionId p.sequence
        (p.text.getD "") p.speakerTag p.confidence] ∧
    (alLookup st.buffer p.sessionId = none →
      alLookup (sessionChunk st p configured ext).buffer p.sessionId = some [p]) := by
  rw [sessionChunk_text_char st p configured ext hv hnb]
  refine ⟨bufferInsert_lookup _ _, rfl, rfl, ?_⟩
  intro hnone
  have hb := bufferInsert_lookup st.buffer p
  rw [hnone] at hb
  simpa using hb

/-- Witness for C5 (amended) at the untracked session id `x` of the empty
server state. -/
theorem c5_chunk_no_state_precondition_witness :
    (validChunk (mkChunk "x" 1 "hi") = true ∧
      isBlank (mkChunk "x" 1 "hi").text = false) ∧
    (alLookup (sessionChunk initState (mkChunk "x" 1 "hi") true
        unusedTranscription).buffer "x" =
      some ((alLookup initState.buffer "x").getD [] ++ [mkChunk "x" 1 "hi"]) ∧
    (sessionChunk initState (mkChunk "x" 1 "hi") true
        unusedTranscription).sessions = initState.sessions ∧
    (sessionChunk initState (mkChunk "x" 1 "hi") true
        unusedTranscription).emitted =
      initState.emitted ++ [OutEvent.transcriptionUpdate "x" 1 "hi" "speaker" none] ∧
    (alLookup initState.buffer "x" = none →
      alLookup (sessionChunk initState (mkChunk "x" 1 "hi") true
        unusedTranscription).buffer "x" = some [mkChunk "x" 1 "hi"])) :=
  ⟨⟨by decide, by decide⟩,
    c5_chunk_no_state_precondition initState (mkChunk "x" 1 "hi") true
      unusedTranscription (by decide) (by decide)⟩

/-! ### C6 — empty transcript at finalization -/

/-- C6: if the transcript assembled at finalization is empty (for example a
session stopped with zero chunks), summarization is skipped — even a
summarization capability that would error is never consulted and causes no
failure — no Summary row is produced, and the session still transitions to
COMPLETED. -/
theorem c6_empty_transcript_skips_summary (st : ServerState) (sid : String)
    (r : SessionRow) (configured : Bool) (ext : String → Except String String)
    (parseJson : String → Option GeminiSummary)
    (hsid : sid ≠ "") (hr : alLookup st.sessions sid = some r)
    (htr : assembleTranscript st sid = "") :
    (alLookup (sessionStop st sid configured ext parseJson true).sessions sid).map
        (fun row => row.status) = some SessionStatus.completed ∧
    (sessionStop st sid configured ext parseJson true).summaries = st.summaries ∧
    (sessionStop st sid configured ext parseJson true).emitted =
      st.emitted ++ [OutEvent.sessionStatus sid SessionStatus.processing none,
        OutEvent.sessionStatus sid SessionStatus.completed none] := by
  have hsum : summaryStep (assembleTranscript st sid) configured ext parseJson =
      Except.ok none := by
    rw [htr]
    simp [summaryStep]
  obtain ⟨h1, h2, h3, h4, h5⟩ :=
    sessionStop_commit st sid configured ext parseJson r none hsid hr hsum
  exact ⟨h1, h3, h4⟩

/-- Witness for C6 at the chunkless demo session, with an erroring
summarization capability. -/
theorem c6_empty_transcript_skips_summary_witness :
    (("s" : String) ≠ "" ∧
      alLookup demoStart.sessions "s" = some recordingRow ∧
      assembleTranscript demoStart "s" = "") ∧
    ((alLookup (sessionStop demoStart "s" true failingSummarizer
        noParse true).sessions "s").map (fun row => row.status) =
        some SessionStatus.completed ∧
      (sessionStop demoStart "s" true failingSummarizer noParse true).summaries =
        demoStart.summaries ∧
      (sessionStop demoStart "s" true failingSummarizer noParse true).emitted =
        demoStart.emitted ++
          [OutEvent.sessionStatus "s" SessionStatus.processing none,
            OutEvent.sessionStatus "s" SessionStatus.completed none]) :=
  ⟨⟨by decide, by decide, by decide⟩,
    c6_empty_transcript_skips_summary demoStart "s" recordingRow
      true failingSummarizer noParse (by decide) (by decide) (by decide)⟩

/-! ### C7 — transcription failure degrades gracefully -/

/-- C7: when the external transcription capability fails, the gateway's
`catch` returns the explicit empty-result sentinel (empty text, zero
confidence) instead of propagating the error; the chunk is still buffered
(with empty text) and broadcast with empty text, the session table is
untouched, and a subsequent valid chunk is still accepted into the buffer. -/
theorem c7_transcription_failure_degrades (st : ServerState) (p : ChunkPayload)
    (e : String) (hv : validChunk p = true) (hblank : isBlank p.text = true)
    (haudio : (p.audio == "") = false) :
    transcribeAudio true (Except.error e) = Except.ok sentinelTranscription ∧
    sentinelTranscription.text = "" ∧
    sentinelTranscription.confidence = some 0 ∧
    (sessionChunk st p true (Except.error e)).sessions = st.sessions ∧
    alLookup (sessionChunk st p true (Except.error e)).buffer p.sessionId =
      some ((alLookup st.buffer p.sessionId).getD [] ++
        [{ p with
           text := some "", speakerTag := "speaker", confidence := some 0 }]) ∧
    (sessionChunk st p true (Except.error e)).emitted =
      st.emitted ++ [OutEvent.transcriptionUpdate p.sessionId p.sequence ""
        "speaker" (some 0)] ∧
    (∀ (q : ChunkPayload) (cfq : Bool) (eq' : Except String TranscriptionResult),
      validChunk q = true → isBlank q.text = false →
      alLookup (sessionChunk (sessionChunk st p true (Except.error e)) q cfq
          eq').buffer q.sessionId =
        some ((alLookup (sessionChunk st p true (Except.error e)).buffer
          q.sessionId).getD [] ++ [q])) := by
  have htr : transcribeAudio true (Except.error e) =
      Except.ok sentinelTranscription := by
    rfl
  have hchar := sessionChunk_transcribed_char st p true (Except.error e)
    sentinelTranscription hv hblank haudio htr
  refine ⟨htr, rfl, rfl, ?_, ?_, ?_, ?_⟩
  · rw [hchar]
    rfl
  · rw [hchar]
    exact bufferInsert_lookup _ _
  · rw [hchar]
    rfl
  · intro q cfq eq' hvq hnbq
    rw [sessionChunk_text_char _ q cfq eq' hvq hnbq]
    exact bufferInsert_lookup _ _

/-- Witness for C7 at a concrete audio-only chunk whose transcription call
fails, followed by a subsequent text chunk. -/
theorem c7_transcription_failure_degrades_witness :
    (validChunk audioChunk = true ∧ isBlank audioChunk.text = true ∧
      (audioChunk.audio == "") = false) ∧
    (transcribeAudio true (Except.error "api down") =
        Except.ok sentinelTranscription ∧
      sentinelTranscription.text = "" ∧
      sentinelTranscription.confidence = some 0 ∧
      (sessionChunk demoStart audioChunk true (Except.error "api down")).sessions =
        demoStart.sessions ∧
      alLookup (sessionChunk demoStart audioChunk true
          (Except.error "api down")).buffer "s" =
        some ((alLookup demoStart.buffer "s").getD [] ++
          [{ audioChunk with
             text := some "", speakerTag := "speaker", confidence := some 0 }]) ∧
      (sessionChunk demoStart audioChunk true (Except.error "api down")).emitted =
        demoStart.emitted ++
          [OutEvent.transcriptionUpdate "s" 1 "" "speaker" (some 0)] ∧
      (∀ (q : ChunkPayload) (cfq : Bool) (eq' : Except String TranscriptionResult),
        validChunk q = true → isBlank q.text = false →
        alLookup (sessionChunk (sessionChunk demoStart audioChunk true
            (Except.error "api down")) q cfq eq').buffer q.sessionId =
          some ((alLookup (sessionChunk demoStart audioChunk true
            (Except.error "api down")).buffer q.sessionId).getD [] ++ [q]))) :=
  ⟨⟨by decide, by decide, by decide⟩,
    c7_transcription_failure_degrades demoStart audioChunk "api down"
      (by decide) (by decide) (by decide)⟩

/-! ### C8 — summarization failure at finalization -/

/-- C8 counterexample: when the external summarization capability errors at
finalization of a session with a non-empty transcript, the session does NOT
proceed to COMPLETED — the error propagates out of `summarizeTranscript`
(whose `try` only wraps JSON parsing), the handler's `catch` marks the
session FAILED and broadcasts an error, and no Summary row is written. -/
theorem c8_capability_error_fails_session :
    (alLookup (sessionStop chunkedState "s" true failingSummarizer noParse
      true).sessions "s").map (fun row => row.status) =
      some SessionStatus.failed ∧
    (sessionStop chunkedState "s" true failingSummarizer noParse true).summaries =
      [] ∧
    (sessionStop chunkedState "s" true failingSummarizer noParse
      true).emitted.getLast? =
      some (OutEvent.sessionError "Failed to process summary") := by
  decide

/-- C8 (amended): at finalization of a non-empty transcript, a summarization
response that does not parse into the three-field contract degrades to the
raw-text fallback (raw output preserved in keyPoints, actionItems and
decisions marked unextractable) and finalization proceeds to COMPLETED; but
an external-capability ERROR is not caught by the gateway: it propagates and
the session transitions to FAILED with an error broadcast. -/
theorem c8_unparseable_degrades_but_error_fails (st : ServerState) (sid : String)
    (r : SessionRow) (ext : String → Except String String)
    (parseJson : String → Option GeminiSummary)
    (hsid : sid ≠ "") (hr : alLookup st.sessions sid = some r)
    (htr : assembleTranscript st sid ≠ "") :
    (∀ raw : String,
      ext (summaryPrompt (assembleTranscript st sid)) = Except.ok raw →
      parseJson raw = none →
      (alLookup (sessionStop st sid true ext parseJson true).sessions sid).map
          (fun row => row.status) = some SessionStatus.completed ∧
      alLookup (sessionStop st sid true ext parseJson true).summaries sid =
        some (summaryFallback raw) ∧
      (sessionStop st sid true ext parseJson true).emitted =
        st.emitted ++ [OutEvent.sessionStatus sid SessionStatus.processing none,
          OutEvent.sessionStatus sid SessionStatus.completed
            (some (summaryFallback raw))]) ∧
    (∀ (e : String) (txOk : Bool),
      ext (summaryPrompt (assembleTranscript st sid)) = Except.error e →
      (alLookup (sessionStop st sid true ext parseJson txOk).sessions sid).map
          (fun row => row.status) = some SessionStatus.failed ∧
      (sessionStop st sid true ext parseJson txOk).summaries = st.summaries ∧
      (sessionStop st sid true ext parseJson txOk).emitted =
        st.emitted ++ [OutEvent.sessionStatus sid SessionStatus.processing none,
          OutEvent.sessionError "Failed to process summary"]) := by
  have hcfg : ¬ ((true : Bool) = false) := by decide
  constructor
  · intro raw hraw hparse
    have hz : summarizeTranscript true (assembleTranscript st sid) ext parseJson =
        Except.ok (summaryFallback raw) := by
      unfold summarizeTranscript
      rw [if_neg hcfg, hraw]
      simp only [hparse]
    have hsum : summaryStep (assembleTranscript st sid) true ext parseJson =
        Except.ok (some (summaryFallback raw)) := by
      unfold summaryStep
      rw [if_neg htr, hz]
      rfl
    obtain ⟨h1, h2, h3, h4, h5⟩ := sessionStop_commit st sid true ext parseJson r
      (some (summaryFallback raw)) hsid hr hsum
    refine ⟨h1, ?_, h4⟩
    rw [h3]
    exact alLookup_alSet_self _ _ _
  · intro e txOk herr
    have hz : summarizeTranscript true (assembleTranscript st sid) ext parseJson =
        Except.error e := by
      unfold summarizeTranscript
      rw [if_neg hcfg, herr]
    have hsum : summaryStep (assembleTranscript st sid) true ext parseJson =
        Except.error e := by
      unfold summaryStep
      rw [if_neg htr, hz]
      rfl
    obtain ⟨h1, h2, h3, h4, h5⟩ := sessionStop_sumFail st sid true ext parseJson r
      e txOk hsid hr hsum
    exact ⟨h1, h3, h4⟩

/-- Witness for C8 (amended): the demo session with one "hello" chunk,
stopped with a capability returning the unparseable response "RAW". -/
theorem c8_unparseable_degrades_but_error_fails_witness :
    (("s" : String) ≠ "" ∧
      alLookup chunkedState.sessions "s" = some recordingRow ∧
      assembleTranscript chunkedState "s" ≠ "" ∧
      okSummarizer (summaryPrompt (assembleTranscript chunkedState "s")) =
        Except.ok "RAW" ∧
      noParse "RAW" = none) ∧
    ((alLookup (sessionStop chunkedState "s" true okSummarizer noParse
        true).sessions "s").map (fun row => row.status) =
        some SessionStatus.completed ∧
      alLookup (sessionStop chunkedState "s" true okSummarizer noParse
        true).summaries "s" = some (summaryFallback "RAW") ∧
      (sessionStop chunkedState "s" true okSummarizer noParse true).emitted =
        chunkedState.emitted ++
          [OutEvent.sessionStatus "s" SessionStatus.processing none,
            OutEvent.sessionStatus "s" SessionStatus.completed
              (some (summaryFallback "RAW"))]) := by
  have hmain := c8_unparseable_degrades_but_error_fails chunkedState "s"
    recordingRow okSummarizer noParse (by decide) (by decide) (by decide)
  exact ⟨⟨by decide, by decide, by decide, by rfl, by rfl⟩,
    hmain.1 "RAW" (by rfl) (by rfl)⟩

/-! ### C9 — all-or-nothing finalization persistence -/

/-- C9: finalization persistence is all-or-nothing: the buffered chunk
upserts and the summary upsert run inside one atomic transaction, and when
that transaction fails the session transitions to FAILED, an error event is
broadcast after the PROCESSING status, and no chunk or summary row from the
attempt is visible afterward (both tables are exactly as before the stop). -/
theorem c9_tx_failure_all_or_nothing (st : ServerState) (sid : String)
    (configured : Bool) (ext : String → Except String String)
    (parseJson : String → Option GeminiSummary) (r : SessionRow)
    (s? : Option GeminiSummary)
    (hsid : sid ≠ "") (hr : alLookup st.sessions sid = some r)
    (hsum : summaryStep (assembleTranscript st sid) configured ext parseJson =
      Except.ok s?) :
    (alLookup (sessionStop st sid configured ext parseJson false).sessions sid).map
        (fun row => row.status) = some SessionStatus.failed ∧
    (sessionStop st sid configured ext parseJson false).chunkRows = st.chunkRows ∧
    (sessionStop st sid configured ext parseJson false).summaries = st.summaries ∧
    (sessionStop st sid configured ext parseJson false).emitted =
      st.emitted ++ [OutEvent.sessionStatus sid SessionStatus.processing none,
        OutEvent.sessionError "Failed to process summary"] ∧
    alLookup (sessionStop st sid configured ext parseJson false).buffer sid = none :=
  sessionStop_txFail st sid configured ext parseJson r s? hsid hr hsum

/-- Witness for C9 at the demo session with one "hello" chunk and a failing
transaction. -/
theorem c9_tx_failure_all_or_nothing_witness :
    (("s" : String) ≠ "" ∧
      alLookup chunkedState.sessions "s" = some recordingRow ∧
      summaryStep (assembleTranscript chunkedState "s") true okSummarizer noParse =
        Except.ok (some (summaryFallback "RAW"))) ∧
    ((alLookup (sessionStop chunkedState "s" true okSummarizer noParse
        false).sessions "s").map (fun row => row.status) =
        some SessionStatus.failed ∧
      (sessionStop chunkedState "s" true okSummarizer noParse false).chunkRows =
        chunkedState.chunkRows ∧
      (sessionStop chunkedState "s" true okSummarizer noParse false).summaries =
        chunkedState.summaries ∧
      (sessionStop chunkedState "s" true okSummarizer noParse false).emitted =
        chunkedState.emitted ++
          [OutEvent.sessionStatus "s" SessionStatus.processing none,
            OutEvent.sessionError "Failed to process summary"] ∧
      alLookup (sessionStop chunkedState "s" true okSummarizer noParse
        false).buffer "s" = none) :=
  ⟨⟨by decide, by decide, by rfl⟩,
    c9_tx_failure_all_or_nothing chunkedState "s" true okSummarizer noParse
      recordingRow (some (summaryFallback "RAW"))
      (by decide) (by decide) (by rfl)⟩

theorem seqLe_trans (a b c : TranscriptUpdate) :
    seqLe a b → seqLe b c → seqLe a c := by
  simp only [seqLe, decide_eq_true_eq]
  omega

theorem seqLe_total (a b : TranscriptUpdate) : seqLe a b || seqLe b a := by
  simp only [seqLe, Bool.or_eq_true, decide_eq_true_eq]
  omega

/-- C10: the client recorder machine's TRANSCRIPT action preserves the
transcript-list invariant: an update whose sequence is already present
replaces the existing entry at its position, otherwise it is inserted and
the list re-sorted; hence the list always holds at most one entry per
sequence number and stays ordered by strictly ascending sequence. -/
theorem c10_transcript_action_preserves_invariant (l : List TranscriptUpdate)
    (u : TranscriptUpdate) (h : seqSorted l) : seqSorted (transcriptAction l u) := by
  unfold transcriptAction
  cases hidx : l.findIdx? (fun c => c.sequence == u.sequence) with
  | some i =>
    rw [List.findIdx?_eq_some_iff_getElem] at hidx
    obtain ⟨hi, hp, -⟩ := hidx
    have hseq : l[i].sequence = u.sequence := by simpa using hp
    unfold seqSorted at h ⊢
    rw [List.map_set, list_set_self]
    · exact h
    · rw [List.getElem?_map, List.getElem?_eq_getElem hi]
      simp [hseq]
  | none =>
    rw [List.findIdx?_eq_none_iff] at hidx
    have hfresh : ∀ x ∈ l, x.sequence ≠ u.sequence := by
      intro x hx
      have := hidx x hx
      simpa using this
    have hsorted := List.sorted_mergeSort seqLe_trans seqLe_total (l ++ [u])
    have hm : (((l ++ [u]).mergeSort seqLe).map (fun c => c.sequence)).Pairwise (· ≤ ·) := by
      rw [List.pairwise_map]
      exact hsorted.imp (by
        intro a b hab
        simpa [seqLe] using hab)
    have hperm : List.Perm (((l ++ [u]).mergeSort seqLe).map (fun c => c.sequence))
        ((l ++ [u]).map (fun c => c.sequence)) :=
      (List.mergeSort_perm (l ++ [u]) seqLe).map _
    have hnodup : (((l ++ [u]).mergeSort seqLe).map (fun c => c.sequence)).Nodup := by
      rw [hperm.nodup_iff, List.map_append, List.nodup_append]
      refine ⟨List.Sorted.nodup h, by simp, ?_⟩
      intro a ha
      simp only [List.mem_map] at ha
      obtain ⟨x, hx, rfl⟩ := ha
      simp [hfresh x hx]
    exact List.Sorted.lt_of_le hm hnodup

/-- Witness for C10 at a concrete out-of-order delivery: the list holding
sequences 1 and 3 receives the update with sequence 2. -/
theorem c10_transcript_action_preserves_invariant_witness :
    seqSorted [⟨"s", 1, "a", "sp", none⟩, ⟨"s", 3, "c", "sp", none⟩] ∧
      seqSorted (transcriptAction
        [⟨"s", 1, "a", "sp", none⟩, ⟨"s", 3, "c", "sp", none⟩]
        ⟨"s", 2, "b", "sp", none⟩) :=
  ⟨by decide, c10_transcript_action_preserves_invariant _ _ (by decide)⟩

end ScribeAI
